import Mathlib

/-!
Verification of the multi-tenant polling and notification engine of
src/epay-bot/bot.py.  The definitions below are a shallow embedding of the
Python source: the sqlite tables of `OrderDatabase` become association lists,
the per-tenant polling state of `PaymentBot.polling_loop` becomes an explicit
state record, and one iteration of the while-body of `polling_loop` becomes a
pure state-transition function.  Python locals that may be unbound
(`new_success_orders`, `new_success_settlements`) are modelled with `Option`,
so the `NameError` control flow of the source is represented faithfully.
-/

namespace EpayBot

/-- Order record, restricted to the fields read by `polling_loop`
(bot.py 1130-1137): `trade_no` and `int(order.get("status", 0))`. -/
structure Order where
  trade_no : String
  status : Int
deriving DecidableEq, Repr

/-- Settlement record, restricted to the fields read by `polling_loop`
(bot.py 1160-1167): `id` and `int(settlement.get("status", 0))`. -/
structure Settlement where
  sid : String
  status : Int
deriving DecidableEq, Repr

/-- The `notified_orders` table (bot.py 175-181): `trade_no TEXT PRIMARY KEY,
chat_id INTEGER`.  The sole primary key is `trade_no`, so the table holds at
most one row per trade number; we model it as an association list from
trade_no to chat_id.  The `notified_settlements` table (bot.py 183-190) has
the identical shape (`settlement_id TEXT PRIMARY KEY, chat_id INTEGER`) and is
modelled by the same type. -/
abbrev Table := List (String × Int)

/-- `OrderDatabase.is_order_notified` (bot.py 215-227): SELECT 1 FROM
notified_orders WHERE trade_no = ? AND chat_id = ?; result is whether a row
matches both columns.  `is_settlement_notified` (bot.py 242-254) is the
verbatim analogue on `notified_settlements` and is embedded by this same
function applied to that table. -/
def is_order_notified (t : Table) (tn : String) (cid : Int) : Bool :=
  t.any fun p => p.1 == tn && p.2 == cid

/-- `OrderDatabase.mark_order_notified` (bot.py 229-240): INSERT OR REPLACE
INTO notified_orders (trade_no, chat_id) VALUES (?, ?).  Because `trade_no`
is the sole primary key, the insert replaces any existing row with the same
trade_no, whatever its chat_id.  `mark_settlement_notified` (bot.py 256-267)
is the verbatim analogue on `notified_settlements` and is embedded by this
same function applied to that table. -/
def mark_order_notified (t : Table) (tn : String) (cid : Int) : Table :=
  (tn, cid) :: t.filter fun p => p.1 != tn

/-- Operations a client can run against the dedup store after some row was
written: further marks (by any tenant), point queries, and a store reopen.
`reopen` models a process restart followed by `OrderDatabase.init_db`
(bot.py 169-213), which only issues CREATE TABLE IF NOT EXISTS statements and
therefore keeps every existing row of the sqlite file. -/
inductive DbOp where
  | mark (tn : String) (cid : Int)
  | query (tn : String) (cid : Int)
  | reopen
deriving DecidableEq, Repr

/-- Effect of one dedup-store operation on the `notified_orders` table. -/
def applyOp (t : Table) : DbOp → Table
  | .mark tn cid => mark_order_notified t tn cid
  | .query _ _ => t
  | .reopen => t

/-- Effect of a sequence of dedup-store operations. -/
def applyOps (t : Table) (ops : List DbOp) : Table :=
  ops.foldl applyOp t

/-- One queued notification item: the payload identity (the trade_no of an
order, resp. the id of a settlement) together with the `_retries` counter the
source stores inside the payload dict (bot.py 88-90; a fresh item has no
`_retries` key, read as 0). -/
structure QItem where
  payload : String
  retries : Nat
deriving DecidableEq, Repr

/-- Observable outcome of the drain for one item: delivered to the messaging
sink, or silently dropped after exhausting retries. -/
inductive DeliveryEvent where
  | delivered (p : String)
  | dropped (p : String)
deriving DecidableEq, Repr

/-- `NotificationQueue.process_notifications` (bot.py 50-96): the drain pops
items from the head; on sink success the item is removed (delivered); on sink
failure it computes `retries = item.get("_retries", 0) + 1` and re-appends the
item at the tail iff `retries <= 3`, else the item is dropped.
`SettlementNotificationQueue.process_notifications` (bot.py 111-161) has the
identical retry logic and is embedded by this same function.  The sink
argument gives the outcome of attempting delivery of payload `p` when the
item currently carries `_retries = k` (its (k+1)-st attempt). -/
def process_notifications (sink : String → Nat → Bool) : List QItem → List DeliveryEvent
  | [] => []
  | it :: rest =>
    if sink it.payload it.retries then
      DeliveryEvent.delivered it.payload :: process_notifications sink rest
    else
      if it.retries + 1 ≤ 3 then
        process_notifications sink (rest ++ [{ it with retries := it.retries + 1 }])
      else
        DeliveryEvent.dropped it.payload :: process_notifications sink rest
termination_by l => l.length + (l.map fun it => 4 - it.retries).sum
decreasing_by
  · simp; omega
  · simp [List.map_append, List.sum_append]; omega
  · simp; omega

/-- Per-tenant polling state: the entries of `self.polling_intervals`,
`self.last_order_times`, `self.last_settlement_times` (bot.py 423-425) for
this tenant, plus the locals of the running `polling_loop` invocation:
`consecutive_errors` (bot.py 1096) and the two possibly-unbound locals
`new_success_orders` / `new_success_settlements` (`none` models a Python
local that has not been assigned yet, whose read raises NameError). -/
structure TenantState where
  interval : Nat
  lastOrderTime : Int
  lastSettlementTime : Int
  consecutiveErrors : Nat
  nsoVar : Option (List Order)
  nssVar : Option (List Settlement)
deriving DecidableEq, Repr

/-- State touched by one tenant task: its `TenantState`, the two dedup
tables, the two in-memory notification queues (as lists of (chat_id, payload
id) pairs appended by `add_notification`, bot.py 44-48 and 105-109), the
in-memory `polling_active` flag of this tenant and the durable
`polling_status` table (chat_id INTEGER PRIMARY KEY, active INTEGER). -/
structure BotState where
  ts : TenantState
  ordersDb : Table
  settlementsDb : Table
  orderQueue : List (Int × String)
  settlementQueue : List (Int × String)
  pollingActive : Bool
  pollingFlag : List (Int × Bool)
deriving DecidableEq, Repr

/-- `OrderDatabase.set_polling_status` (bot.py 333-344): INSERT OR REPLACE
keyed on chat_id. -/
def set_polling_status (t : List (Int × Bool)) (chat : Int) (b : Bool) :
    List (Int × Bool) :=
  (chat, b) :: t.filter fun p => p.1 != chat

/-- `OrderDatabase.get_polling_status` (bot.py 346-358): the active column of
the row of this chat, defaulting to False when no row exists. -/
def get_polling_status (t : List (Int × Bool)) (chat : Int) : Bool :=
  match t.find? (fun p => p.1 == chat) with
  | some p => p.2
  | none => false

/-- The inline classification loops of `polling_loop` (bot.py 1129-1137 for
orders, keyed by `trade_no`; bot.py 1158-1167 for settlements, keyed by
`id`): walk the fetched records in order; a record qualifies iff its key is a
nonempty string, its status parses to 1, and the dedup table does not hold
(key, chat); each qualifying record is appended to the result and immediately
marked in the table before the next record is examined. -/
def classifyNew (key : α → String) (st : α → Int) (chat : Int) :
    List α → Table → List α × Table
  | [], db => ([], db)
  | o :: rest, db =>
    if key o ≠ "" ∧ st o = 1 ∧ is_order_notified db (key o) chat = false then
      (o :: (classifyNew key st chat rest (mark_order_notified db (key o) chat)).1,
        (classifyNew key st chat rest (mark_order_notified db (key o) chat)).2)
    else
      classifyNew key st chat rest db

/-- The error handler of the while-body of `polling_loop` (bot.py 1197-1205):
increment `consecutive_errors`; once it reaches `max_errors = 5`, set the
interval to `min(60, interval * 2)` and reset the counter to 0. -/
def errorStep (ts : TenantState) : TenantState :=
  if 5 ≤ ts.consecutiveErrors + 1 then
    { ts with interval := min 60 (ts.interval * 2), consecutiveErrors := 0 }
  else
    { ts with consecutiveErrors := ts.consecutiveErrors + 1 }

/-- The order-processing block of the while-body (bot.py 1126-1154): skipped
entirely when `orders` is empty (leaving the local `new_success_orders`
unbound, i.e. `nsoVar` unchanged); otherwise classify-and-mark, bind the
local, and when at least one new order was found update the last-discovery
time, halve the interval with floor 5 (`max(5, interval // 2)`), and append
the new orders to the notification queue.  Returns the updated state and the
list of orders enqueued by this block. -/
def ordersPhase (chat : Int) (now : Int) (orders : List Order) (s : BotState) :
    BotState × List Order :=
  if orders = [] then (s, [])
  else
    let r := classifyNew Order.trade_no Order.status chat orders s.ordersDb
    let s1 := { s with ordersDb := r.2, ts := { s.ts with nsoVar := some r.1 } }
    if r.1 = [] then (s1, [])
    else
      ({ s1 with
          ts := { s1.ts with
                    lastOrderTime := now,
                    interval := max 5 (s1.ts.interval / 2) },
          orderQueue := s1.orderQueue ++ r.1.map fun o => (chat, o.trade_no) },
        r.1)

/-- The settlement-processing block of the while-body (bot.py 1156-1184),
structurally identical to `ordersPhase` but acting on the settlement table,
queue, local variable, and last-settlement time. -/
def settlementsPhase (chat : Int) (now : Int) (stl : List Settlement)
    (s : BotState) : BotState × List Settlement :=
  if stl = [] then (s, [])
  else
    let r := classifyNew Settlement.sid Settlement.status chat stl s.settlementsDb
    let s1 := { s with settlementsDb := r.2, ts := { s.ts with nssVar := some r.1 } }
    if r.1 = [] then (s1, [])
    else
      ({ s1 with
          ts := { s1.ts with
                    lastSettlementTime := now,
                    interval := max 5 (s1.ts.interval / 2) },
          settlementQueue := s1.settlementQueue ++ r.1.map fun x => (chat, x.sid) },
        r.1)

/-- The tail of the while-body (bot.py 1186-1195): evaluate
`if not new_success_orders and not new_success_settlements:`.  Reading an
unbound local raises NameError, which the enclosing `except Exception`
handler (bot.py 1197-1205) turns into an error cycle; the read of
`new_success_settlements` is reached only when `new_success_orders` is bound
and empty (Python `and` short-circuits).  When both are bound and empty and
both last-discovery times lie more than 300 seconds in the past, the interval
becomes `min(30, interval + 5)`.  Every path that completes without an
exception resets `consecutive_errors` to 0 (bot.py 1194-1195).  Returns the
updated state and whether the cycle ended in the error handler. -/
def decayPhase (now : Int) (s : BotState) : BotState × Bool :=
  match s.ts.nsoVar with
  | none => ({ s with ts := errorStep s.ts }, true)
  | some nso =>
    if nso = [] then
      match s.ts.nssVar with
      | none => ({ s with ts := errorStep s.ts }, true)
      | some nss =>
        if nss = [] then
          let ts1 :=
            if 300 < now - s.ts.lastOrderTime ∧ 300 < now - s.ts.lastSettlementTime then
              { s.ts with interval := min 30 (s.ts.interval + 5) }
            else s.ts
          ({ s with ts := { ts1 with consecutiveErrors := 0 } }, false)
        else ({ s with ts := { s.ts with consecutiveErrors := 0 } }, false)
    else ({ s with ts := { s.ts with consecutiveErrors := 0 } }, false)

/-- Input of one poll cycle: either the pair of record lists returned by
`get_orders` / `get_settlements` (which never raise, see `get_orders` below),
or an exception raised by the surrounding machinery before the
order-processing block (credential lookup, `update_last_poll_time`, record
field conversion), which lands in the error handler directly. -/
inductive CycleInput where
  | exn
  | ok (orders : List Order) (settlements : List Settlement)

/-- Trace events of one poll cycle, in program order: dedup marks performed by
the classification loops and enqueues performed by the add-notification
loops. -/
inductive Event where
  | markOrder (tn : String)
  | enqOrder (tn : String)
  | markSettle (sid : String)
  | enqSettle (sid : String)
deriving DecidableEq, Repr

/-- Result of one poll cycle: the post state, the event trace in program
order, and whether the cycle ended in the error handler. -/
structure CycleResult where
  state : BotState
  events : List Event
  errored : Bool
deriving DecidableEq, Repr

/-- One iteration of the while-body of `PaymentBot.polling_loop`
(bot.py 1100-1210): order block, then settlement block, then the
quiet-decay / error-reset tail.  In the source all dedup marks of a block
happen inside its classification loop, strictly before the enqueue loop of
the same block runs, which the event trace records. -/
def poll_cycle (chat : Int) (now : Int) (inp : CycleInput) (s : BotState) :
    CycleResult :=
  match inp with
  | .exn => { state := { s with ts := errorStep s.ts }, events := [], errored := true }
  | .ok orders settlements =>
    let p1 := ordersPhase chat now orders s
    let p2 := settlementsPhase chat now settlements p1.1
    let d := decayPhase now p2.1
    { state := d.1,
      events :=
        p1.2.map (fun o => Event.markOrder o.trade_no)
          ++ p1.2.map (fun o => Event.enqOrder o.trade_no)
          ++ p2.2.map (fun x => Event.markSettle x.sid)
          ++ p2.2.map (fun x => Event.enqSettle x.sid),
      errored := d.2 }

/-- Projection selecting order-enqueue events from a trace. -/
def enqOrderProj : Event → Option String
  | .enqOrder tn => some tn
  | _ => none

/-- The ids of the orders enqueued by a cycle, read off its event trace. -/
def enqOrderIds (r : CycleResult) : List String :=
  r.events.filterMap enqOrderProj

/-- The enable branch of `PaymentBot.toggle_polling` (bot.py 1059-1071) plus
the start of the fresh `polling_loop` task it spawns (bot.py 1096): set the
in-memory flag, durably record active = 1, reset the interval to 10 seconds
and both last-discovery times to now; the fresh loop invocation starts with
`consecutive_errors = 0` and both classification locals unbound. -/
def enable_polling (chat : Int) (now : Int) (s : BotState) : BotState :=
  { s with
      pollingActive := true,
      pollingFlag := set_polling_status s.pollingFlag chat true,
      ts := { s.ts with
                interval := 10,
                lastOrderTime := now,
                lastSettlementTime := now,
                consecutiveErrors := 0,
                nsoVar := none,
                nssVar := none } }

/-- The disable branch of `PaymentBot.toggle_polling` (bot.py 1042-1052):
cancel the task, clear the in-memory flag, durably record active = 0; the
interval entry is left untouched. -/
def disable_polling (chat : Int) (s : BotState) : BotState :=
  { s with
      pollingActive := false,
      pollingFlag := set_polling_status s.pollingFlag chat false }

/-- `PaymentBot.toggle_polling` (bot.py 1020-1089): dispatch on the current
in-memory flag. -/
def toggle_polling (chat : Int) (now : Int) (s : BotState) : BotState :=
  if s.pollingActive then disable_polling chat s else enable_polling chat now s

/-- States a tenant task can be in: freshly enabled via `toggle_polling`, or
the result of any sequence of poll cycles from such a state. -/
inductive Reachable (chat : Int) : BotState → Prop where
  | enable : ∀ s now, Reachable chat (enable_polling chat now s)
  | step : ∀ s now inp, Reachable chat s →
      Reachable chat (poll_cycle chat now inp s).state

/-- Outcome of one fetch attempt inside `get_orders` / `get_settlements`
(bot.py 1233-1263 for the three aiohttp attempts, 1269-1302 for the curl
fallback, 1306-1330 for the urllib fallback; the settlement variants
1349-1446 are verbatim analogues): a transport-level exception that the
handler catches, a rejected transport result (HTTP status other than 200,
resp. curl returncode other than 0), a JSON parse failure, or a parsed JSON
body with its `code` and `data` fields. -/
inductive AttemptOutcome (α : Type) where
  | transportErr
  | non200 (status : Nat)
  | badJson
  | json (code : Int) (data : List α)
deriving DecidableEq, Repr

/-- The per-attempt data extraction shared by every fallback of `get_orders`
and `get_settlements`: an attempt yields data iff it parsed a JSON body with
`code == 1` and a truthy `data` list (bot.py 1246-1248, 1291-1293,
1320-1322); every other outcome logs and falls through to the next
attempt. -/
def attemptData : AttemptOutcome α → Option (List α)
  | .json code data => if code = 1 ∧ data.isEmpty = false then some data else none
  | _ => none

/-- First attempt that yields data, in attempt order. -/
def firstData : List (AttemptOutcome α) → Option (List α)
  | [] => none
  | a :: rest =>
    match attemptData a with
    | some d => some d
    | none => firstData rest

/-- `PaymentBot.get_orders` (bot.py 1222-1336): three aiohttp attempts, then
one curl attempt, then one urllib attempt, returning the data of the first
attempt with `code == 1` and truthy `data`; when every attempt falls through,
the final `return []` (bot.py 1333) yields the empty list, and the enclosing
`try` / `except Exception` (bot.py 1334-1336) maps any other escape to `[]`
as well. -/
def get_orders (a1 a2 a3 curl ul : AttemptOutcome Order) : List Order :=
  (firstData [a1, a2, a3, curl, ul]).getD []

/-- `PaymentBot.get_settlements` (bot.py 1338-1452): same structure as
`get_orders` on settlement records. -/
def get_settlements (a1 a2 a3 curl ul : AttemptOutcome Settlement) :
    List Settlement :=
  (firstData [a1, a2, a3, curl, ul]).getD []

/-- A concrete bot state used to instantiate witnesses and
counterexamples. -/
def baseState : BotState :=
  { ts := { interval := 10, lastOrderTime := 0, lastSettlementTime := 0,
            consecutiveErrors := 0, nsoVar := none, nssVar := none },
    ordersDb := [], settlementsDb := [], orderQueue := [],
    settlementQueue := [], pollingActive := false, pollingFlag := [] }

/-! Helper lemmas about the dedup table. -/

theorem is_order_notified_iff {t : Table} {tn : String} {cid : Int} :
    is_order_notified t tn cid = true ↔ ∃ p ∈ t, p.1 = tn ∧ p.2 = cid := by
  simp [is_order_notified, List.any_eq_true]

theorem is_order_notified_mark_self (t : Table) (tn : String) (cid : Int) :
    is_order_notified (mark_order_notified t tn cid) tn cid = true := by
  rw [is_order_notified_iff]
  exact ⟨(tn, cid), List.mem_cons_self _ _, rfl, rfl⟩

theorem is_order_notified_mark_preserve {t : Table} {tn : String} {cid : Int}
    (tn2 : String) (cid2 : Int)
    (h : is_order_notified t tn cid = true) (hc : tn2 ≠ tn ∨ cid2 = cid) :
    is_order_notified (mark_order_notified t tn2 cid2) tn cid = true := by
  rw [is_order_notified_iff] at h ⊢
  obtain ⟨p, hp, h1, h2⟩ := h
  by_cases htn : tn2 = tn
  · rcases hc with hc | hc
    · exact absurd htn hc
    · exact ⟨(tn2, cid2), List.mem_cons_self _ _, htn, hc⟩
  · refine ⟨p, List.mem_cons_of_mem _ ?_, h1, h2⟩
    rw [List.mem_filter]
    refine ⟨hp, ?_⟩
    simp [h1, htn, bne_iff_ne]
    intro hcontra
    exact htn hcontra.symm

/-! Helper lemmas about the classification loops. -/

theorem classifyNew_preserves {α : Type} (key : α → String) (st : α → Int)
    (chat : Int) (L : List α) {db : Table} {tn : String}
    (h : is_order_notified db tn chat = true) :
    is_order_notified (classifyNew key st chat L db).2 tn chat = true := by
  induction L generalizing db with
  | nil => simpa [classifyNew] using h
  | cons o rest ih =>
    rw [classifyNew]
    split
    · exact ih (is_order_notified_mark_preserve _ _ h (Or.inr rfl))
    · exact ih h

theorem classifyNew_marks {α : Type} (key : α → String) (st : α → Int)
    (chat : Int) (L : List α) {db : Table} {tn : String}
    (h : tn ∈ (classifyNew key st chat L db).1.map key) :
    is_order_notified (classifyNew key st chat L db).2 tn chat = true := by
  induction L generalizing db with
  | nil => simp [classifyNew] at h
  | cons o rest ih =>
    by_cases hcond : key o ≠ "" ∧ st o = 1 ∧
        is_order_notified db (key o) chat = false
    · rw [classifyNew, if_pos hcond] at h ⊢
      simp only [List.map_cons, List.mem_cons] at h
      rcases h with h | h
      · subst h
        exact classifyNew_preserves key st chat rest
          (is_order_notified_mark_self _ _ _)
      · exact ih h
    · rw [classifyNew, if_neg hcond] at h ⊢
      exact ih h

theorem classifyNew_not_mem {α : Type} (key : α → String) (st : α → Int)
    (chat : Int) (L : List α) {db : Table} {tn : String}
    (h : is_order_notified db tn chat = true) :
    tn ∉ (classifyNew key st chat L db).1.map key := by
  induction L generalizing db with
  | nil => simp [classifyNew]
  | cons o rest ih =>
    by_cases hcond : key o ≠ "" ∧ st o = 1 ∧
        is_order_notified db (key o) chat = false
    · rw [classifyNew, if_pos hcond]
      simp only [List.map_cons, List.mem_cons, not_or]
      constructor
      · intro heq
        have hfalse := hcond.2.2
        rw [← heq] at hfalse
        rw [h] at hfalse
        simp at hfalse
      · exact ih (is_order_notified_mark_preserve _ _ h (Or.inr rfl))
    · rw [classifyNew, if_neg hcond]
      exact ih h

theorem classifyNew_count {α : Type} (key : α → String) (st : α → Int)
    (chat : Int) (L : List α) (db : Table) (tn : String) :
    ((classifyNew key st chat L db).1.map key).count tn ≤ 1 := by
  induction L generalizing db with
  | nil => simp [classifyNew]
  | cons o rest ih =>
    by_cases hcond : key o ≠ "" ∧ st o = 1 ∧
        is_order_notified db (key o) chat = false
    · rw [classifyNew, if_pos hcond]
      by_cases heq : tn = key o
      · subst heq
        simp only [List.map_cons, List.count_cons_self]
        have hnot : key o ∉ ((classifyNew key st chat rest
            (mark_order_notified db (key o) chat)).1.map key) :=
          classifyNew_not_mem key st chat rest
            (is_order_notified_mark_self db (key o) chat)
        rw [List.count_eq_zero.2 hnot]
      · have heq2 : ¬ key o = tn := fun hh => heq hh.symm
        simp only [List.map_cons, List.count_cons, beq_iff_eq, heq2, if_false,
          Nat.add_zero]
        exact ih (mark_order_notified db (key o) chat)
    · rw [classifyNew, if_neg hcond]
      exact ih db

/-! Claim C2: dedup persistence. -/

/-- The core of the amended C2: a dedup row survives any sequence of store
operations that never marks the same trade_no with a different chat_id. -/
theorem applyOps_preserves {tn : String} {cid : Int} (ops : List DbOp) :
    ∀ t : Table, is_order_notified t tn cid = true →
    (∀ cid2, DbOp.mark tn cid2 ∈ ops → cid2 = cid) →
    is_order_notified (applyOps t ops) tn cid = true := by
  induction ops with
  | nil => intro t h _; simpa [applyOps] using h
  | cons op rest ih =>
    intro t h hops
    have hstep : is_order_notified (applyOp t op) tn cid = true := by
      cases op with
      | mark tn2 cid2 =>
        by_cases htn : tn2 = tn
        · subst htn
          have : cid2 = cid := hops cid2 (List.mem_cons_self _ _)
          subst this
          exact is_order_notified_mark_preserve _ _ h (Or.inr rfl)
        · exact is_order_notified_mark_preserve _ _ h (Or.inl htn)
      | query tn2 cid2 => exact h
      | reopen => exact h
    have htail : ∀ cid2, DbOp.mark tn cid2 ∈ rest → cid2 = cid :=
      fun cid2 hm => hops cid2 (List.mem_cons_of_mem _ hm)
    have : applyOps t (op :: rest) = applyOps (applyOp t op) rest := by
      simp [applyOps]
    rw [this]
    exact ih _ hstep htail

/-- C2 (corrected, counterexample): the claim as stated is false.  After
`mark_order_notified("A", 1)`, a mark of the same trade_no by a different
tenant, `mark_order_notified("A", 2)`, replaces the row (trade_no is the
sole primary key and the insert is INSERT OR REPLACE), so
`is_order_notified("A", 1)` returns false afterwards. -/
theorem c2_counterexample :
    is_order_notified (applyOps (mark_order_notified [] "A" 1)
      [DbOp.mark "A" 2]) "A" 1 = false := by decide

/-- C2 (corrected, amended): once `mark_order_notified(I, T)` has executed,
`is_order_notified(I, T)` returns true after every subsequent sequence of
dedup-store operations (queries, store reopen, and marks) in which no mark
targets the same record id I with a tenant other than T; in particular it
survives a simulated process restart and marks of other record ids by any
tenant. -/
theorem c2_dedup_persistence (t : Table) (tn : String) (cid : Int)
    (ops : List DbOp) (h : ∀ cid2, DbOp.mark tn cid2 ∈ ops → cid2 = cid) :
    is_order_notified (applyOps (mark_order_notified t tn cid) ops) tn cid
      = true :=
  applyOps_preserves ops _ (is_order_notified_mark_self t tn cid) h

/-- Witness for C2: the amended theorem applied at a concrete input, with a
reopen, a query, a mark of another record id by another tenant, and an
idempotent re-mark by the same tenant. -/
theorem c2_witness :
    is_order_notified (applyOps (mark_order_notified [] "A" 1)
      [DbOp.query "A" 1, DbOp.reopen, DbOp.mark "B" 2, DbOp.mark "A" 1])
      "A" 1 = true :=
  c2_dedup_persistence [] "A" 1 _ (by intro cid2 h; simp at h; omega)

/-! Helper lemmas about the phases of one poll cycle. -/

theorem ordersPhase_nil (chat now : Int) (s : BotState) :
    ordersPhase chat now [] s = (s, []) := by
  simp [ordersPhase]

theorem ordersPhase_spec (chat now : Int) (orders : List Order) (s : BotState)
    (h : orders ≠ []) :
    (ordersPhase chat now orders s).2
        = (classifyNew Order.trade_no Order.status chat orders s.ordersDb).1
      ∧ (ordersPhase chat now orders s).1.ordersDb
        = (classifyNew Order.trade_no Order.status chat orders s.ordersDb).2 := by
  simp only [ordersPhase, if_neg h]
  by_cases hr : (classifyNew Order.trade_no Order.status chat orders s.ordersDb).1 = []
  · simp [hr]
  · simp [hr]

theorem settlementsPhase_nil (chat now : Int) (s : BotState) :
    settlementsPhase chat now [] s = (s, []) := by
  simp [settlementsPhase]

theorem settlementsPhase_spec (chat now : Int) (stl : List Settlement)
    (s : BotState) (h : stl ≠ []) :
    (settlementsPhase chat now stl s).2
        = (classifyNew Settlement.sid Settlement.status chat stl s.settlementsDb).1
      ∧ (settlementsPhase chat now stl s).1.settlementsDb
        = (classifyNew Settlement.sid Settlement.status chat stl s.settlementsDb).2 := by
  simp only [settlementsPhase, if_neg h]
  by_cases hr : (classifyNew Settlement.sid Settlement.status chat stl
      s.settlementsDb).1 = []
  · simp [hr]
  · simp [hr]

theorem settlementsPhase_ordersDb (chat now : Int) (stl : List Settlement)
    (s : BotState) :
    (settlementsPhase chat now stl s).1.ordersDb = s.ordersDb := by
  simp only [settlementsPhase]
  split
  · rfl
  · split <;> rfl

theorem ordersPhase_settlementsDb (chat now : Int) (orders : List Order)
    (s : BotState) :
    (ordersPhase chat now orders s).1.settlementsDb = s.settlementsDb := by
  simp only [ordersPhase]
  split
  · rfl
  · split <;> rfl

theorem decayPhase_dbs (now : Int) (s : BotState) :
    (decayPhase now s).1.ordersDb = s.ordersDb
      ∧ (decayPhase now s).1.settlementsDb = s.settlementsDb := by
  unfold decayPhase
  constructor <;>
  · split
    · rfl
    · split
      · split
        · rfl
        · split <;> rfl
      · rfl

theorem poll_cycle_ordersDb (chat now : Int) (orders : List Order)
    (stl : List Settlement) (s : BotState) :
    (poll_cycle chat now (.ok orders stl) s).state.ordersDb
      = (ordersPhase chat now orders s).1.ordersDb := by
  simp only [poll_cycle]
  rw [(decayPhase_dbs now _).1, settlementsPhase_ordersDb]

/-! Lemmas reading enqueued order ids off the event trace. -/

theorem filterMap_enqOrderProj_markOrder (l : List Order) :
    (l.map fun o => Event.markOrder o.trade_no).filterMap enqOrderProj = [] := by
  induction l with
  | nil => rfl
  | cons o t ih => simp [enqOrderProj, ih]

theorem filterMap_enqOrderProj_enqOrder (l : List Order) :
    (l.map fun o => Event.enqOrder o.trade_no).filterMap enqOrderProj
      = l.map Order.trade_no := by
  induction l with
  | nil => rfl
  | cons o t ih => simp [enqOrderProj, ih]

theorem filterMap_enqOrderProj_markSettle (l : List Settlement) :
    (l.map fun x => Event.markSettle x.sid).filterMap enqOrderProj = [] := by
  induction l with
  | nil => rfl
  | cons o t ih => simp [enqOrderProj, ih]

theorem filterMap_enqOrderProj_enqSettle (l : List Settlement) :
    (l.map fun x => Event.enqSettle x.sid).filterMap enqOrderProj = [] := by
  induction l with
  | nil => rfl
  | cons o t ih => simp [enqOrderProj, ih]

theorem enqOrderIds_eq (chat now : Int) (orders : List Order)
    (stl : List Settlement) (s : BotState) :
    enqOrderIds (poll_cycle chat now (.ok orders stl) s)
      = (ordersPhase chat now orders s).2.map Order.trade_no := by
  simp only [poll_cycle, enqOrderIds, List.filterMap_append,
    filterMap_enqOrderProj_markOrder, filterMap_enqOrderProj_enqOrder,
    filterMap_enqOrderProj_markSettle, filterMap_enqOrderProj_enqSettle,
    List.append_nil, List.nil_append]

/-! Claim C1: idempotence under polling. -/

/-- C1 (confirmed): across two consecutive poll cycles of the same tenant, a
given trade_no is enqueued for notification at most once in total (the first
qualifying cycle marks it in the dedup table before enqueueing, so the filter
of the second cycle rejects it; duplicates within one response list are also
enqueued at most once).  This is stated for every trade_no and every pair of
gateway responses, which covers in particular a paid order appearing in both
responses. -/
theorem c1_idempotence_under_polling (chat t1 t2 : Int) (s : BotState)
    (L1 L2 : List Order) (S1 S2 : List Settlement) (tn : String) :
    (enqOrderIds (poll_cycle chat t1 (.ok L1 S1) s)).count tn
      + (enqOrderIds (poll_cycle chat t2 (.ok L2 S2)
          (poll_cycle chat t1 (.ok L1 S1) s).state)).count tn ≤ 1 := by
  rw [enqOrderIds_eq, enqOrderIds_eq]
  have hcount2 : ∀ s2 : BotState,
      ((ordersPhase chat t2 L2 s2).2.map Order.trade_no).count tn ≤ 1 := by
    intro s2
    by_cases h2 : L2 = []
    · simp [h2, ordersPhase_nil]
    · rw [(ordersPhase_spec chat t2 L2 s2 h2).1]
      exact classifyNew_count _ _ _ _ _ _
  by_cases h1 : L1 = []
  · simp only [h1, ordersPhase_nil, List.map_nil, List.count_nil, Nat.zero_add]
    exact hcount2 _
  · by_cases hmem : tn ∈ (ordersPhase chat t1 L1 s).2.map Order.trade_no
    · have hc1 : ((ordersPhase chat t1 L1 s).2.map Order.trade_no).count tn ≤ 1 := by
        rw [(ordersPhase_spec chat t1 L1 s h1).1]
        exact classifyNew_count _ _ _ _ _ _
      have hmarked : is_order_notified
          (poll_cycle chat t1 (.ok L1 S1) s).state.ordersDb tn chat = true := by
        rw [poll_cycle_ordersDb, (ordersPhase_spec chat t1 L1 s h1).2]
        apply classifyNew_marks
        rw [← (ordersPhase_spec chat t1 L1 s h1).1]
        exact hmem
      have hc2 : ((ordersPhase chat t2 L2
          (poll_cycle chat t1 (.ok L1 S1) s).state).2.map Order.trade_no).count tn
            = 0 := by
        by_cases h2 : L2 = []
        · simp [h2, ordersPhase_nil]
        · rw [(ordersPhase_spec chat t2 L2 _ h2).1]
          exact List.count_eq_zero.2 (classifyNew_not_mem _ _ _ _ hmarked)
      omega
    · have hc1 : ((ordersPhase chat t1 L1 s).2.map Order.trade_no).count tn = 0 :=
        List.count_eq_zero.2 hmem
      have := hcount2 (poll_cycle chat t1 (.ok L1 S1) s).state
      omega

/-! Interval bounds through each phase. -/

theorem errorStep_interval {ts : TenantState}
    (h5 : 5 ≤ ts.interval) (h60 : ts.interval ≤ 60) :
    5 ≤ (errorStep ts).interval ∧ (errorStep ts).interval ≤ 60 := by
  unfold errorStep
  split <;> dsimp only [] <;> omega

theorem ordersPhase_interval (chat now : Int) (orders : List Order)
    (s : BotState) (h5 : 5 ≤ s.ts.interval) (h60 : s.ts.interval ≤ 60) :
    5 ≤ (ordersPhase chat now orders s).1.ts.interval
      ∧ (ordersPhase chat now orders s).1.ts.interval ≤ 60 := by
  simp only [ordersPhase]
  split
  · exact ⟨h5, h60⟩
  · split
    · exact ⟨h5, h60⟩
    · refine ⟨?_, ?_⟩ <;> dsimp only [] <;> omega

theorem settlementsPhase_interval (chat now : Int) (stl : List Settlement)
    (s : BotState) (h5 : 5 ≤ s.ts.interval) (h60 : s.ts.interval ≤ 60) :
    5 ≤ (settlementsPhase chat now stl s).1.ts.interval
      ∧ (settlementsPhase chat now stl s).1.ts.interval ≤ 60 := by
  simp only [settlementsPhase]
  split
  · exact ⟨h5, h60⟩
  · split
    · exact ⟨h5, h60⟩
    · refine ⟨?_, ?_⟩ <;> dsimp only [] <;> omega

theorem decayPhase_interval (now : Int) (s : BotState)
    (h5 : 5 ≤ s.ts.interval) (h60 : s.ts.interval ≤ 60) :
    5 ≤ (decayPhase now s).1.ts.interval
      ∧ (decayPhase now s).1.ts.interval ≤ 60 := by
  unfold decayPhase
  split
  · exact errorStep_interval h5 h60
  · split
    · split
      · exact errorStep_interval h5 h60
      · split
        · split <;> dsimp only [] <;> omega
        · exact ⟨h5, h60⟩
    · exact ⟨h5, h60⟩

theorem poll_cycle_interval (chat now : Int) (inp : CycleInput) (s : BotState)
    (h5 : 5 ≤ s.ts.interval) (h60 : s.ts.interval ≤ 60) :
    5 ≤ (poll_cycle chat now inp s).state.ts.interval
      ∧ (poll_cycle chat now inp s).state.ts.interval ≤ 60 := by
  cases inp with
  | exn => exact errorStep_interval h5 h60
  | ok orders stl =>
    have h1 := ordersPhase_interval chat now orders s h5 h60
    have h2 := settlementsPhase_interval chat now stl
      (ordersPhase chat now orders s).1 h1.1 h1.2
    exact decayPhase_interval now _ h2.1 h2.2

/-! Claim C3: interval invariant. -/

/-- C3 (confirmed): in every state reachable from enabling polling (initial
interval 10) by any sequence of poll cycles - each of which can halve the
interval with floor 5 (up to twice, for orders and settlements), add 5 with
cap 30 on quiet decay, or double it with cap 60 on the fifth consecutive
error - the interval satisfies 5 <= interval <= 60. -/
theorem c3_interval_invariant (chat : Int) (s : BotState)
    (h : Reachable chat s) : 5 ≤ s.ts.interval ∧ s.ts.interval ≤ 60 := by
  induction h with
  | enable s0 now => exact ⟨by norm_num [enable_polling], by norm_num [enable_polling]⟩
  | step s0 now inp hr ih => exact poll_cycle_interval chat now inp s0 ih.1 ih.2

/-- Witness for C3 at the freshly enabled state. -/
theorem c3_witness :
    5 ≤ (enable_polling 1 0 baseState).ts.interval
      ∧ (enable_polling 1 0 baseState).ts.interval ≤ 60 :=
  c3_interval_invariant 1 _ (Reachable.enable baseState 0)

/-! Claim C6: error backoff. -/

theorem decayPhase_success_errors (now : Int) (s : BotState)
    (h : (decayPhase now s).2 = false) :
    (decayPhase now s).1.ts.consecutiveErrors = 0 := by
  unfold decayPhase at h ⊢
  rcases hv : s.ts.nsoVar with - | nso <;> rw [hv] at h <;>
    dsimp only [] at h ⊢
  · exact absurd h (by simp)
  · by_cases h1 : nso = []
    · rw [if_pos h1] at h ⊢
      rcases hw : s.ts.nssVar with - | nss <;> rw [hw] at h <;>
        dsimp only [] at h ⊢
      · exact absurd h (by simp)
      · by_cases h2 : nss = []
        · rw [if_pos h2]
        · rw [if_neg h2]
    · rw [if_neg h1]

/-- C6 (confirmed): starting with the consecutive-error counter at 0, five
consecutive error cycles leave the interval untouched for the first four and
set it to `min(60, interval_before * 2)` on the fifth, resetting the counter
to 0; and every cycle that completes without an exception resets the counter
to 0. -/
theorem c6_error_backoff :
    (∀ (chat : Int) (s : BotState) (n1 n2 n3 n4 n5 : Int),
      s.ts.consecutiveErrors = 0 →
      (poll_cycle chat n5 .exn (poll_cycle chat n4 .exn (poll_cycle chat n3 .exn
          (poll_cycle chat n2 .exn (poll_cycle chat n1 .exn
            s).state).state).state).state).state.ts.interval
          = min 60 (s.ts.interval * 2)
        ∧ (poll_cycle chat n5 .exn (poll_cycle chat n4 .exn (poll_cycle chat n3 .exn
            (poll_cycle chat n2 .exn (poll_cycle chat n1 .exn
              s).state).state).state).state).state.ts.consecutiveErrors = 0)
    ∧ (∀ (chat now : Int) (inp : CycleInput) (s : BotState),
        (poll_cycle chat now inp s).errored = false →
        (poll_cycle chat now inp s).state.ts.consecutiveErrors = 0) := by
  constructor
  · intro chat s n1 n2 n3 n4 n5 h
    simp only [poll_cycle]
    simp [errorStep, h]
  · intro chat now inp s h
    cases inp with
    | exn => simp [poll_cycle] at h
    | ok orders stl => exact decayPhase_success_errors now _ h

/-- Witness for C6: five error cycles from the fresh state double the
interval from 10 to 20 and reset the counter; a concrete discovery cycle
completes without error and resets the counter. -/
theorem c6_witness :
    ((poll_cycle 1 5 .exn (poll_cycle 1 4 .exn (poll_cycle 1 3 .exn
        (poll_cycle 1 2 .exn (poll_cycle 1 1 .exn
          baseState).state).state).state).state).state.ts.interval
        = min 60 (baseState.ts.interval * 2)
      ∧ (poll_cycle 1 5 .exn (poll_cycle 1 4 .exn (poll_cycle 1 3 .exn
          (poll_cycle 1 2 .exn (poll_cycle 1 1 .exn
            baseState).state).state).state).state).state.ts.consecutiveErrors = 0)
    ∧ (poll_cycle 1 9 (.ok [⟨"A", 1⟩] []) baseState).state.ts.consecutiveErrors
        = 0 :=
  ⟨c6_error_backoff.1 1 baseState 1 2 3 4 5 rfl,
    c6_error_backoff.2 1 9 (.ok [⟨"A", 1⟩] []) baseState (by decide)⟩

/-! Claim C9: fresh interval on re-enable. -/

/-- C9 (confirmed): toggling polling for a tenant whose in-memory flag is
off takes the enable branch, which sets the interval entry of that tenant to
exactly 10 seconds - whatever value it held before - and durably records
active = 1 in the polling_status table. -/
theorem c9_fresh_interval_on_enable (chat now : Int) (s : BotState)
    (h : s.pollingActive = false) :
    (toggle_polling chat now s).ts.interval = 10
      ∧ get_polling_status (toggle_polling chat now s).pollingFlag chat
          = true := by
  simp [toggle_polling, h, enable_polling, get_polling_status,
    set_polling_status]

/-- Witness for C9: re-enabling a tenant whose previous task held interval
57 resets the interval to 10 and records the flag. -/
theorem c9_witness :
    (toggle_polling 7 99 { baseState with
        ts := { baseState.ts with interval := 57 } }).ts.interval = 10
      ∧ get_polling_status (toggle_polling 7 99 { baseState with
          ts := { baseState.ts with interval := 57 } }).pollingFlag 7 = true :=
  c9_fresh_interval_on_enable 7 99 _ rfl

/-! Claim C10: totality of the gateway fetch. -/

theorem firstData_eq_none {α : Type} {l : List (AttemptOutcome α)}
    (h : ∀ a ∈ l, attemptData a = none) : firstData l = none := by
  induction l with
  | nil => rfl
  | cons a t ih =>
    unfold firstData
    rw [h a (List.mem_cons_self _ _)]
    exact ih fun b hb => h b (List.mem_cons_of_mem _ hb)

/-- C10 (confirmed): `get_orders` and `get_settlements` are total functions
into record lists; whenever every attempt of the fallback chain (three
aiohttp attempts, curl, urllib) fails - HTTP status other than 200, JSON
parse failure, a caught transport exception, a well-formed body with
code other than 1, or code 1 with an empty data list - both return exactly
the empty list, so a caller observes only data or empty, never an error. -/
theorem c10_gateway_totality :
    (∀ a1 a2 a3 c u : AttemptOutcome Order,
        (∀ a ∈ [a1, a2, a3, c, u], attemptData a = none) →
        get_orders a1 a2 a3 c u = [])
    ∧ (∀ a1 a2 a3 c u : AttemptOutcome Settlement,
        (∀ a ∈ [a1, a2, a3, c, u], attemptData a = none) →
        get_settlements a1 a2 a3 c u = []) := by
  constructor
  · intro a1 a2 a3 c u h
    unfold get_orders
    rw [firstData_eq_none h]
    rfl
  · intro a1 a2 a3 c u h
    unfold get_settlements
    rw [firstData_eq_none h]
    rfl

/-- Witness for C10: one concrete instance of every failure mode - caught
transport exception, HTTP 500, malformed JSON, a well-formed body with
code 0, and a code 1 body with empty data - yields the empty list for both
calls. -/
theorem c10_witness :
    get_orders .transportErr (.non200 500) .badJson (.json 0 [])
      (.json 1 []) = []
    ∧ get_settlements .transportErr (.non200 500) .badJson (.json 0 [])
        (.json 1 []) = [] :=
  ⟨c10_gateway_totality.1 _ _ _ _ _ (by decide),
    c10_gateway_totality.2 _ _ _ _ _ (by decide)⟩

/-! Claim C5: delivery retry bound. -/

theorem pn_absent (sink : String → Nat → Bool) (p : String)
    (l : List QItem) :
    (∀ it ∈ l, it.payload ≠ p) →
    (process_notifications sink l).count (DeliveryEvent.delivered p) = 0
      ∧ (process_notifications sink l).count (DeliveryEvent.dropped p) = 0 := by
  induction l using process_notifications.induct sink with
  | case1 => intro h; simp [process_notifications]
  | case2 it rest hs ih =>
    intro h
    have hne : it.payload ≠ p := h it (List.mem_cons_self _ _)
    have hrest := ih fun b hb => h b (List.mem_cons_of_mem _ hb)
    rw [process_notifications, if_pos hs]
    simp [List.count_cons, hrest.1, hrest.2, hne]
  | case3 it rest hs hr ih =>
    intro h
    have hrest := ih ?_
    · rw [process_notifications, if_neg hs, if_pos hr]
      exact hrest
    · intro b hb
      rcases List.mem_append.1 hb with hb | hb
      · exact h b (List.mem_cons_of_mem _ hb)
      · rcases List.mem_singleton.1 hb with rfl
        exact h it (List.mem_cons_self _ _)
  | case4 it rest hs hr ih =>
    intro h
    have hne : it.payload ≠ p := h it (List.mem_cons_self _ _)
    have hrest := ih fun b hb => h b (List.mem_cons_of_mem _ hb)
    rw [process_notifications, if_neg hs, if_neg hr]
    simp [List.count_cons, hrest.1, hrest.2, hne]

theorem pn_all_fail (sink : String → Nat → Bool) (p : String)
    (hsink : ∀ k, k ≤ 3 → sink p k = false) (l : List QItem) :
    (∀ it ∈ l, it.payload = p → it.retries ≤ 3) →
    (process_notifications sink l).count (DeliveryEvent.delivered p) = 0
      ∧ (process_notifications sink l).count (DeliveryEvent.dropped p)
          = (l.filter fun it => it.payload == p).length := by
  induction l using process_notifications.induct sink with
  | case1 => intro h; simp [process_notifications]
  | case2 it rest hs ih =>
    intro h
    have hne : it.payload ≠ p := by
      intro hp
      have hret := h it (List.mem_cons_self _ _) hp
      rw [hp] at hs
      rw [hsink it.retries hret] at hs
      exact absurd hs (by simp)
    have hrest := ih fun b hb => h b (List.mem_cons_of_mem _ hb)
    rw [process_notifications, if_pos hs]
    simp [List.count_cons, List.filter_cons, hrest.1, hrest.2, hne]
  | case3 it rest hs hr ih =>
    intro h
    have hrest := ih ?_
    · rw [process_notifications, if_neg hs, if_pos hr]
      rw [hrest.1, hrest.2]
      refine ⟨rfl, ?_⟩
      rw [List.filter_append, List.filter_cons]
      by_cases hp : it.payload = p
      · simp [hp, List.filter_singleton]
      · simp [List.filter_singleton, hp]
    · intro b hb
      rcases List.mem_append.1 hb with hb | hb
      · exact h b (List.mem_cons_of_mem _ hb)
      · rcases List.mem_singleton.1 hb with rfl
        intro hp
        exact hr
  | case4 it rest hs hr ih =>
    intro h
    have hrest := ih fun b hb => h b (List.mem_cons_of_mem _ hb)
    rw [process_notifications, if_neg hs, if_neg hr]
    by_cases hp : it.payload = p <;>
      simp [List.count_cons, List.filter_cons, hrest.1, hrest.2, hp]

theorem pn_single_success (sink : String → Nat → Bool) (p : String) (f : Nat)
    (hf : f ≤ 3) (hfail : ∀ k, k < f → sink p k = false)
    (hsucc : sink p f = true) (l : List QItem) :
    ∀ r, r ≤ f → (l.filter fun it => it.payload == p) = [⟨p, r⟩] →
    (process_notifications sink l).count (DeliveryEvent.delivered p) = 1
      ∧ (process_notifications sink l).count (DeliveryEvent.dropped p) = 0 := by
  induction l using process_notifications.induct sink with
  | case1 => intro r hr hfil; simp at hfil
  | case2 it rest hs ih =>
    intro r hr hfil
    rw [List.filter_cons] at hfil
    by_cases hp : it.payload = p
    · rw [if_pos (by simp [hp])] at hfil
      have hfrest : (rest.filter fun b => b.payload == p) = [] :=
        (List.cons_eq_cons.1 hfil).2
      have habs : ∀ b ∈ rest, b.payload ≠ p := by
        intro b hb hbp
        have : b ∈ rest.filter fun c => c.payload == p :=
          List.mem_filter.2 ⟨hb, by simp [hbp]⟩
        rw [hfrest] at this
        exact absurd this (List.not_mem_nil _)
      have hrest := pn_absent sink p rest habs
      rw [process_notifications, if_pos hs]
      simp [List.count_cons, hrest.1, hrest.2, hp]
    · rw [if_neg (by simp [hp])] at hfil
      have hrest := ih r hr hfil
      rw [process_notifications, if_pos hs]
      simp [List.count_cons, hrest.1, hrest.2, hp]
  | case3 it rest hs hr3 ih =>
    intro r hr hfil
    rw [List.filter_cons] at hfil
    by_cases hp : it.payload = p
    · rw [if_pos (by simp [hp])] at hfil
      have hit : it = ⟨p, r⟩ := (List.cons_eq_cons.1 hfil).1
      have hfrest : (rest.filter fun b => b.payload == p) = [] :=
        (List.cons_eq_cons.1 hfil).2
      have hrf : r < f := by
        rcases Nat.lt_or_ge r f with hlt | hge
        · exact hlt
        · exfalso
          have hrfeq : r = f := by omega
          rw [hit] at hs
          dsimp only [] at hs
          rw [hrfeq, hsucc] at hs
          exact absurd rfl hs
      have hnew : ((rest ++ [{ it with retries := it.retries + 1 }]).filter
          fun b : QItem => b.payload == p) = [⟨p, r + 1⟩] := by
        rw [List.filter_append, hfrest, List.nil_append, List.filter_singleton]
        rw [hit]
        simp
      have := ih (r + 1) (by omega) hnew
      rw [process_notifications, if_neg hs, if_pos hr3]
      exact this
    · rw [if_neg (by simp [hp])] at hfil
      have hnew : ((rest ++ [{ it with retries := it.retries + 1 }]).filter
          fun b : QItem => b.payload == p) = [⟨p, r⟩] := by
        rw [List.filter_append, hfil, List.filter_singleton]
        have hb : (it.payload == p) = false := by simp [hp]
        simp [hb]
      have := ih r hr hnew
      rw [process_notifications, if_neg hs, if_pos hr3]
      exact this
  | case4 it rest hs hr3 ih =>
    intro r hr hfil
    rw [List.filter_cons] at hfil
    by_cases hp : it.payload = p
    · exfalso
      rw [if_pos (by simp [hp])] at hfil
      have hit : it = ⟨p, r⟩ := (List.cons_eq_cons.1 hfil).1
      have hret : it.retries = r := by rw [hit]
      have hrfeq : r = f := by omega
      apply hs
      rw [hp, hret, hrfeq]
      exact hsucc
    · rw [if_neg (by simp [hp])] at hfil
      have hrest := ih r hr hfil
      rw [process_notifications, if_neg hs, if_neg hr3]
      simp [List.count_cons, hrest.1, hrest.2, hp]

/-- C5 (corrected, counterexample): an item whose delivery fails exactly 3
times is NOT dropped: the source condition `retries <= 3` re-enqueues it a
third time, so a fourth attempt happens, and when that succeeds the item is
delivered.  The claim as stated says a 3-times-failing item is dropped and
never re-enqueued, which is false at this input. -/
theorem c5_counterexample :
    process_notifications (fun _ k => decide (3 ≤ k)) [⟨"X", 0⟩]
      = [DeliveryEvent.delivered "X"] := by
  simp [process_notifications]

/-- C5 (corrected, amended): an item whose delivery fails 4 times (attempts
at retry counts 0..3) is dropped exactly once and never delivered, and the
drain consumes it, so it never re-appears; an item that fails at most 3
times and then succeeds is delivered exactly once and never dropped.  Stated
for a queue holding exactly one item with the given payload (fresh, retry
count 0) and any other items with different payloads. -/
theorem c5_delivery_retry_bound :
    (∀ (sink : String → Nat → Bool) (l : List QItem) (p : String),
      (∀ k, k ≤ 3 → sink p k = false) →
      (l.filter fun it => it.payload == p) = [⟨p, 0⟩] →
      (process_notifications sink l).count (DeliveryEvent.delivered p) = 0
        ∧ (process_notifications sink l).count (DeliveryEvent.dropped p) = 1)
    ∧ (∀ (sink : String → Nat → Bool) (l : List QItem) (p : String) (f : Nat),
      f ≤ 3 → (∀ k, k < f → sink p k = false) → sink p f = true →
      (l.filter fun it => it.payload == p) = [⟨p, 0⟩] →
      (process_notifications sink l).count (DeliveryEvent.delivered p) = 1
        ∧ (process_notifications sink l).count (DeliveryEvent.dropped p) = 0) := by
  constructor
  · intro sink l p hsink hfil
    have hret : ∀ it ∈ l, it.payload = p → it.retries ≤ 3 := by
      intro it hit hp
      have : it ∈ l.filter fun b => b.payload == p :=
        List.mem_filter.2 ⟨hit, by simp [hp]⟩
      rw [hfil] at this
      rcases List.mem_singleton.1 this with rfl
      exact Nat.zero_le 3
    have := pn_all_fail sink p hsink l hret
    rw [hfil] at this
    exact ⟨this.1, by rw [this.2]; rfl⟩
  · intro sink l p f hf hfail hsucc hfil
    exact pn_single_success sink p f hf hfail hsucc l 0 (Nat.zero_le f) hfil

/-- Witness for C5: a singleton queue under an always-failing sink is
dropped once and never delivered; under a sink that fails twice then
succeeds it is delivered exactly once. -/
theorem c5_witness :
    ((process_notifications (fun _ _ => false) [⟨"X", 0⟩]).count
        (DeliveryEvent.delivered "X") = 0
      ∧ (process_notifications (fun _ _ => false) [⟨"X", 0⟩]).count
          (DeliveryEvent.dropped "X") = 1)
    ∧ ((process_notifications (fun _ k => decide (2 ≤ k)) [⟨"X", 0⟩]).count
        (DeliveryEvent.delivered "X") = 1
      ∧ (process_notifications (fun _ k => decide (2 ≤ k)) [⟨"X", 0⟩]).count
          (DeliveryEvent.dropped "X") = 0) :=
  ⟨c5_delivery_retry_bound.1 (fun _ _ => false) [⟨"X", 0⟩] "X"
      (fun _ _ => rfl) (by decide),
    c5_delivery_retry_bound.2 (fun _ k => decide (2 ≤ k)) [⟨"X", 0⟩] "X" 2
      (by omega) (fun k hk => by interval_cases k <;> rfl) rfl (by decide)⟩

/-! Claim C4: write-ahead dedup. -/

theorem poll_cycle_settlementsDb (chat now : Int) (orders : List Order)
    (stl : List Settlement) (s : BotState) :
    (poll_cycle chat now (.ok orders stl) s).state.settlementsDb
      = (settlementsPhase chat now stl
          (ordersPhase chat now orders s).1).1.settlementsDb := by
  simp only [poll_cycle]
  rw [(decayPhase_dbs now _).2]

theorem mem_take_append_of_lt {α : Type} {A rest : List α} {x : α} {k : Nat}
    (hx : x ∈ A) (hk : A.length < k) : x ∈ (A ++ rest).take k := by
  rw [List.take_append_eq_append_take]
  exact List.mem_append.2 (Or.inl (by
    rw [List.take_of_length_le (Nat.le_of_lt hk)]
    exact hx))

theorem take_nonempty_length_lt {α : Type} {A B : List α} {x : α} {k : Nat}
    (hx : x ∈ B.take (k - A.length)) : A.length < k := by
  rcases Nat.lt_or_ge A.length k with hlt | hge
  · exact hlt
  · exfalso
    have h0 : k - A.length = 0 := by omega
    rw [h0] at hx
    exact absurd hx (List.not_mem_nil _)

/-- C4 (confirmed): at every point of a poll cycle (every prefix of its
event trace), each order or settlement that has been enqueued so far was
already marked in its dedup table earlier in the same trace; moreover after
the cycle the post-state dedup tables hold every enqueued id.  In the source
the classification loop of each block performs all marks before the enqueue
loop of that block runs (bot.py 1129-1137 before 1149-1151, 1158-1167 before
1179-1181). -/
theorem c4_write_ahead (chat now : Int) (inp : CycleInput) (s : BotState)
    (k : Nat) (tn : String) :
    (Event.enqOrder tn ∈ (poll_cycle chat now inp s).events.take k →
        Event.markOrder tn ∈ (poll_cycle chat now inp s).events.take k
          ∧ is_order_notified (poll_cycle chat now inp s).state.ordersDb tn chat
              = true)
    ∧ (Event.enqSettle tn ∈ (poll_cycle chat now inp s).events.take k →
        Event.markSettle tn ∈ (poll_cycle chat now inp s).events.take k
          ∧ is_order_notified (poll_cycle chat now inp s).state.settlementsDb tn
              chat = true) := by
  cases inp with
  | exn =>
    constructor <;> intro h <;> simp [poll_cycle] at h
  | ok orders stl =>
    have hev : (poll_cycle chat now (.ok orders stl) s).events
        = (ordersPhase chat now orders s).2.map (fun o => Event.markOrder o.trade_no)
          ++ ((ordersPhase chat now orders s).2.map (fun o => Event.enqOrder o.trade_no)
          ++ ((settlementsPhase chat now stl (ordersPhase chat now orders s).1).2.map
                (fun x => Event.markSettle x.sid)
          ++ (settlementsPhase chat now stl (ordersPhase chat now orders s).1).2.map
                (fun x => Event.enqSettle x.sid))) := by
      simp [poll_cycle]
    constructor
    · intro h
      rw [hev, List.take_append_eq_append_take] at h
      rcases List.mem_append.1 h with h1 | h2
      · exfalso
        obtain ⟨o, -, ho⟩ := List.mem_map.1 (List.mem_of_mem_take h1)
        exact Event.noConfusion ho
      · rw [List.take_append_eq_append_take] at h2
        rcases List.mem_append.1 h2 with h3 | h4
        · have hlen := take_nonempty_length_lt h3
          obtain ⟨o, ho, hoeq⟩ := List.mem_map.1 (List.mem_of_mem_take h3)
          have htn : o.trade_no = tn := by
            injection hoeq
          have horders : orders ≠ [] := by
            intro h0
            rw [h0, ordersPhase_nil] at ho
            exact absurd ho (List.not_mem_nil _)
          constructor
          · rw [hev]
            have hlen1 : ((ordersPhase chat now orders s).2.map
                (fun o => Event.markOrder o.trade_no)).length < k := by
              simpa using hlen
            exact mem_take_append_of_lt
              (List.mem_map.2 ⟨o, ho, by rw [htn]⟩) hlen1
          · rw [poll_cycle_ordersDb, (ordersPhase_spec chat now orders s horders).2]
            apply classifyNew_marks
            rw [← (ordersPhase_spec chat now orders s horders).1]
            exact List.mem_map.2 ⟨o, ho, htn⟩
        · exfalso
          rw [List.take_append_eq_append_take] at h4
          rcases List.mem_append.1 h4 with h5 | h6
          · obtain ⟨x, -, hx⟩ := List.mem_map.1 (List.mem_of_mem_take h5)
            exact Event.noConfusion hx
          · obtain ⟨x, -, hx⟩ := List.mem_map.1 (List.mem_of_mem_take h6)
            exact Event.noConfusion hx
    · intro h
      rw [hev, List.take_append_eq_append_take] at h
      rcases List.mem_append.1 h with h1 | h2
      · exfalso
        obtain ⟨o, -, ho⟩ := List.mem_map.1 (List.mem_of_mem_take h1)
        exact Event.noConfusion ho
      · rw [List.take_append_eq_append_take] at h2
        rcases List.mem_append.1 h2 with h3 | h4
        · exfalso
          obtain ⟨o, -, ho⟩ := List.mem_map.1 (List.mem_of_mem_take h3)
          exact Event.noConfusion ho
        · rw [List.take_append_eq_append_take] at h4
          rcases List.mem_append.1 h4 with h5 | h6
          · exfalso
            obtain ⟨x, -, hx⟩ := List.mem_map.1 (List.mem_of_mem_take h5)
            exact Event.noConfusion hx
          · have hlen := take_nonempty_length_lt h6
            obtain ⟨x, hx, hxeq⟩ := List.mem_map.1 (List.mem_of_mem_take h6)
            have htn : x.sid = tn := by
              injection hxeq
            have hstl : stl ≠ [] := by
              intro h0
              rw [h0, settlementsPhase_nil] at hx
              exact absurd hx (List.not_mem_nil _)
            constructor
            · rw [hev, List.take_append_eq_append_take,
                List.take_append_eq_append_take]
              refine List.mem_append.2 (Or.inr (List.mem_append.2 (Or.inr ?_)))
              exact mem_take_append_of_lt
                (List.mem_map.2 ⟨x, hx, by rw [htn]⟩) (by simpa using hlen)
            · rw [poll_cycle_settlementsDb,
                (settlementsPhase_spec chat now stl _ hstl).2]
              apply classifyNew_marks
              rw [← (settlementsPhase_spec chat now stl _ hstl).1]
              exact List.mem_map.2 ⟨x, hx, htn⟩

/-- Witness for C4: a cycle that discovers the paid order "A" emits the
trace [markOrder "A", enqOrder "A"]; at the two-element prefix, the enqueued
order is already marked in the trace and in the post-state table. -/
theorem c4_witness :
    Event.markOrder "A" ∈ (poll_cycle 1 5 (.ok [⟨"A", 1⟩] [])
        (enable_polling 1 0 baseState)).events.take 2
      ∧ is_order_notified (poll_cycle 1 5 (.ok [⟨"A", 1⟩] [])
          (enable_polling 1 0 baseState)).state.ordersDb "A" 1 = true :=
  (c4_write_ahead 1 5 (.ok [⟨"A", 1⟩] []) (enable_polling 1 0 baseState)
    2 "A").1 (by decide)

/-! Claim C7: quiet-period decay (code bug). -/

/-- C7 (code bug): the first poll cycle after enabling, given empty order
and settlement lists and both last-discovery times more than 300 seconds in
the past, should set the interval to min(30, 10 + 5) = 15 per the claim; the
source instead skips the `if orders:` block, leaving the local
`new_success_orders` unbound, so the decay check at bot.py 1187 raises
NameError, the handler counts an error, and the interval stays 10. -/
theorem c7_quiet_decay_bug :
    (poll_cycle 1 301 (.ok [] []) (enable_polling 1 0 baseState)).errored = true
      ∧ (poll_cycle 1 301 (.ok [] [])
          (enable_polling 1 0 baseState)).state.ts.interval = 10
      ∧ (poll_cycle 1 301 (.ok [] [])
          (enable_polling 1 0 baseState)).state.ts.consecutiveErrors = 1 := by
  decide

/-! Claim C8: non-success gateway code is not an error (code bug). -/

/-- C8 (code bug): a well-formed JSON response with code 0 makes
`get_orders` and `get_settlements` return `[]`; but in a cycle whose
`new_success_orders` local is not yet bound (every cycle up to and including
the first one with a non-empty orders list), the empty list skips the
`if orders:` block and the decay check raises NameError, so the cycle IS
counted as an error; five such cycles in a row trigger the backoff
escalation, doubling the interval from 10 to 20, which the claim rules
out. -/
theorem c8_non_success_code_bug :
    get_orders (.json 0 []) (.json 0 []) (.json 0 []) (.json 0 [])
        (.json 0 []) = []
      ∧ get_settlements (.json 0 []) (.json 0 []) (.json 0 []) (.json 0 [])
          (.json 0 []) = []
      ∧ (poll_cycle 1 10 (.ok [] []) (enable_polling 1 0 baseState)).errored
          = true
      ∧ (poll_cycle 1 10 (.ok [] [])
          (enable_polling 1 0 baseState)).state.ts.consecutiveErrors = 1
      ∧ (poll_cycle 1 50 (.ok [] []) (poll_cycle 1 40 (.ok [] [])
          (poll_cycle 1 30 (.ok [] []) (poll_cycle 1 20 (.ok [] [])
            (poll_cycle 1 10 (.ok [] [])
              (enable_polling 1 0 baseState)).state).state).state).state).state.ts.interval
          = 20 := by
  refine ⟨rfl, rfl, ?_, ?_, ?_⟩ <;> decide

end EpayBot
